import Mathlib

/-!
Shallow embedding of the telemetry-interpretation engine of
`src/main.py` (class `CybotControlApp`): the stream framer in
`receive_data`, the line classifier `process_line`, the row parsers
`process_scan_data` / `process_object_data`, the scan lifecycle
`complete_scan`, the dead-reckoning updates `move_forward` /
`turn_right` / `turn_left`, and the regex helper `extract_number`.

Numbers parsed from the wire are modelled as exact rationals (`ℚ`);
the pose coordinates, which are sums of trigonometric terms, live in
`ℝ`.  Lines are lists of characters; `chars` injects string literals.
Python library functions used by the source (`str.split`, `str.strip`,
`float`, `int`, `re.search`, `re.findall`) are modelled explicitly
below, restricted to the ASCII character classes the protocol can
produce (underscore digit separators and `inf` / `nan` literals of
Python's `float` are not modelled; no claim depends on them).
-/

/-- Characters Python treats as whitespace in `str.split()`, `str.strip()`
and the regex class `\s` (ASCII range). -/
def isPySpace (c : Char) : Bool :=
  c = ' ' || c = '\t' || c = '\n' || c = '\r' || c = '\x0b' || c = '\x0c'

/-- Characters matched by the recovery regex class `[\d.]`. -/
def isNumCh (c : Char) : Bool :=
  c.isDigit || c = '.'

/-- A string literal as a list of characters. -/
def chars (s : String) : List Char :=
  s.toList

/-- Decimal digits to a natural number. -/
def digitsToNat (ds : List Char) : ℕ :=
  ds.foldl (fun n c => 10 * n + (c.toNat - 48)) 0

/-- Python `str.strip()`: drop whitespace from both ends. -/
def pyStrip (l : List Char) : List Char :=
  ((l.dropWhile isPySpace).reverse.dropWhile isPySpace).reverse

/-- Python `s.split()` (no separator): whitespace runs separate tokens,
no empty tokens are produced.  `acc` holds the reversed current token. -/
def splitWsAux : List Char → List Char → List (List Char)
  | [], acc => if acc.isEmpty then [] else [acc.reverse]
  | c :: t, acc =>
    if isPySpace c then
      if acc.isEmpty then splitWsAux t [] else acc.reverse :: splitWsAux t []
    else splitWsAux t (c :: acc)

/-- Python `s.split()` with default separator. -/
def splitWs (l : List Char) : List (List Char) :=
  splitWsAux l []

/-- Python `s.split(sep)` for a one-character separator: empty pieces
are kept, and the result is never empty. -/
def splitOnCharAux (sep : Char) : List Char → List Char → List (List Char)
  | [], acc => [acc.reverse]
  | c :: t, acc =>
    if c = sep then acc.reverse :: splitOnCharAux sep t []
    else splitOnCharAux sep t (c :: acc)

/-- Python `s.split(sep)` for a one-character separator. -/
def splitOnChar (sep : Char) (l : List Char) : List (List Char) :=
  splitOnCharAux sep l []

/-- The framer step of `receive_data`, fused:
`lines = buffer.split('\n'); buffer = lines.pop()` — the complete lines
before the final newline, and the trailing partial line.  Equal to
`(splitOnChar '\n' l).dropLast` paired with its last element
(`splitLines_eq_splitOnChar` below). -/
def splitLinesAux : List Char → List Char → (List (List Char)) × List Char
  | [], acc => ([], acc.reverse)
  | c :: t, acc =>
    if c = '\n' then
      let r := splitLinesAux t []
      (acc.reverse :: r.1, r.2)
    else splitLinesAux t (c :: acc)

/-- Complete lines and trailing buffer of a chunk. -/
def splitLines (l : List Char) : (List (List Char)) × List Char :=
  splitLinesAux l []

/-- `re.findall(r"[\d.]+", line)`: the maximal runs of digits and dots. -/
def numRunsAux : List Char → List Char → List (List Char)
  | [], acc => if acc.isEmpty then [] else [acc.reverse]
  | c :: t, acc =>
    if isNumCh c then numRunsAux t (c :: acc)
    else if acc.isEmpty then numRunsAux t [] else acc.reverse :: numRunsAux t []

/-- `re.findall(r"[\d.]+", line)`. -/
def numRuns (l : List Char) : List (List Char) :=
  numRunsAux l []

/-- Python substring test `pat in l`. -/
def hasSub : List Char → List Char → Bool
  | [], pat => pat.isEmpty
  | c :: t, pat => pat.isPrefixOf (c :: t) || hasSub t pat

/-- Fractional part value: digits `fp` after a decimal point. -/
def fracVal (fp : List Char) : ℚ :=
  (digitsToNat fp : ℚ) / 10 ^ fp.length

/-- Python `float(s)` on the ASCII fragment the protocol produces:
optional surrounding whitespace, optional sign, digits with at most one
dot (at least one digit overall), optional decimal exponent.  Returns
the exact rational value, `none` where Python raises `ValueError`. -/
def pyFloat (l₀ : List Char) : Option ℚ :=
  let l := pyStrip l₀
  let sl : ℚ × List Char :=
    match l with
    | '+' :: t => (1, t)
    | '-' :: t => (-1, t)
    | _ => (1, l)
  let ip := sl.2.takeWhile Char.isDigit
  let l₁ := sl.2.drop ip.length
  let fl : List Char × List Char :=
    match l₁ with
    | '.' :: t => (t.takeWhile Char.isDigit, t.drop (t.takeWhile Char.isDigit).length)
    | _ => ([], l₁)
  if ip.isEmpty && fl.1.isEmpty then none
  else
    let mant : ℚ := sl.1 * ((digitsToNat ip : ℚ) + fracVal fl.1)
    match fl.2 with
    | [] => some mant
    | e :: t =>
      if e = 'e' || e = 'E' then
        let st : ℤ × List Char :=
          match t with
          | '+' :: u => (1, u)
          | '-' :: u => (-1, u)
          | _ => (1, t)
        let ed := st.2.takeWhile Char.isDigit
        if ed.isEmpty || !(st.2.drop ed.length).isEmpty then none
        else some (mant * (10 : ℚ) ^ (st.1 * (digitsToNat ed : ℤ)))
      else none

/-- Python `int(s)`: optional surrounding whitespace, optional sign,
a nonempty run of digits and nothing else. -/
def pyInt (l₀ : List Char) : Option ℤ :=
  let l := pyStrip l₀
  let sl : ℤ × List Char :=
    match l with
    | '+' :: t => (1, t)
    | '-' :: t => (-1, t)
    | _ => (1, l)
  let ds := sl.2.takeWhile Char.isDigit
  if ds.isEmpty || !(sl.2.drop ds.length).isEmpty then none
  else some (sl.1 * (digitsToNat ds : ℤ))

/-- `extract_number` (main.py:812): `re.search` for the literal `pre`,
a nonempty digit run, then the literal `post`, scanning start positions
left to right; `\d+` is greedy and `post` starts with a non-digit, so
the maximal digit run is the regex's match. -/
def extract_number : List Char → List Char → List Char → Option ℕ
  | [], _, _ => none
  | c :: t, pre, post =>
    if pre.isPrefixOf (c :: t) then
      let rest := (c :: t).drop pre.length
      let ds := rest.takeWhile Char.isDigit
      if !ds.isEmpty && post.isPrefixOf (rest.drop ds.length) then
        some (digitsToNat ds)
      else extract_number t pre post
    else extract_number t pre post

/-! ## Data model (main.py:27-32) -/

/-- The two scan kinds of the protocol. -/
inductive ScanKind
  | IR
  | PING
deriving DecidableEq

/-- `self.cybot_position` (main.py:29): `x`, `y` in cm, `angle` in
degrees.  The coordinates are sums of trigonometric terms and live in
`ℝ`; the heading is only ever combined by `+`, `-` and `% 360` with
parsed rationals, so it stays in `ℚ`. -/
structure Pose where
  x : ℝ
  y : ℝ
  heading : ℚ

/-- One entry of `self.objects` (main.py:597-605). -/
structure DetObj where
  objId : ℤ
  x : ℝ
  y : ℝ
  angle : ℚ
  dist : ℚ
  width : ℚ
  kind : Option ScanKind

/-- The engine state owned by `CybotControlApp`: the scan accumulator
`self.scan_data` (fields `angles`, `distances`, `type`), the pose, the
movement history, the object list and the water-sample list.  `plot`
records the scan data handed to `update_polar_plot` by `complete_scan`
(the record handed to the rendering collaborator); rendering itself is
an external collaborator and is not modelled further. -/
structure St where
  scanAngles : List ℚ
  scanDistances : List ℚ
  scanType : Option ScanKind
  pose : Pose
  history : List Pose
  objects : List DetObj
  water : List (ℝ × ℝ)
  plot : Option (List ℚ × List ℚ × Option ScanKind)

/-- The initial state (main.py:28-32): pose `(0, 0, 90)` and its copy
as the first movement-history entry. -/
def initSt : St :=
  { scanAngles := []
    scanDistances := []
    scanType := none
    pose := ⟨0, 0, 90⟩
    history := [⟨0, 0, 90⟩]
    objects := []
    water := []
    plot := none }

/-! ## Pose tracker (main.py:767-810) -/

/-- Degrees to radians, as at the source's trigonometric call sites. -/
noncomputable def radians (q : ℚ) : ℝ :=
  (q : ℝ) * Real.pi / 180

/-- Python float `%` with positive modulus 360: the representative in
`[0, 360)`. -/
def fmod360 (q : ℚ) : ℚ :=
  q - 360 * ⌊q / 360⌋

/-- `move_forward` (main.py:767): `dx = d·sin(θ)`, `dy = d·cos(θ)` with
`θ = radians(angle)`; the new pose is appended to the history. -/
noncomputable def move_forward (st : St) (distance_cm : ℚ) : St :=
  let θ := radians st.pose.heading
  let dx : ℝ := (distance_cm : ℝ) * Real.sin θ
  let dy : ℝ := (distance_cm : ℝ) * Real.cos θ
  let p : Pose := ⟨st.pose.x + dx, st.pose.y + dy, st.pose.heading⟩
  { st with pose := p, history := st.history ++ [p] }

/-- `turn_right` (main.py:784): subtract, then normalize with `%= 360`. -/
def turn_right (st : St) (angle : ℚ) : St :=
  let p : Pose := { st.pose with heading := fmod360 (st.pose.heading - angle) }
  { st with pose := p, history := st.history ++ [p] }

/-- `turn_left` (main.py:798): add, then normalize with `%= 360`. -/
def turn_left (st : St) (angle : ℚ) : St :=
  let p : Pose := { st.pose with heading := fmod360 (st.pose.heading + angle) }
  { st with pose := p, history := st.history ++ [p] }

/-! ## Coordinate transform (inlined at main.py:579-594 and 629-638) -/

/-- The local-polar-to-world transform the source inlines in
`process_object_data` (both the strict and the recovery path), named
`toWorld` as in the specification: robot-relative offset
`(d·sin θ, d·cos θ)`, rotation by the pose heading, translation by the
pose position. -/
noncomputable def toWorld (angle dist : ℚ) (p : Pose) : ℝ × ℝ :=
  let θ := radians angle
  let relX : ℝ := (dist : ℝ) * Real.sin θ
  let relY : ℝ := (dist : ℝ) * Real.cos θ
  let h := radians p.heading
  let rotX := relX * Real.cos h - relY * Real.sin h
  let rotY := relX * Real.sin h + relY * Real.cos h
  (p.x + rotX, p.y + rotY)

/-- The transform as §4.4 of the specification words it, for the
refinement claim C3: `(relX, relY) = (distance·sin θ, distance·cos θ)`
with `θ = radians(localAngle)`, rotate by `headingRad`, then translate
by the pose position. -/
noncomputable def toWorldSpec (localAngle distance : ℚ) (pose : Pose) : ℝ × ℝ :=
  let θ := (localAngle : ℝ) * Real.pi / 180
  let headingRad := (pose.heading : ℝ) * Real.pi / 180
  let relX := (distance : ℝ) * Real.sin θ
  let relY := (distance : ℝ) * Real.cos θ
  let rotX := relX * Real.cos headingRad - relY * Real.sin headingRad
  let rotY := relX * Real.sin headingRad + relY * Real.cos headingRad
  (pose.x + rotX, pose.y + rotY)

/-! ## Scan session (main.py:517-558, 655-674) -/

/-- Append one parsed sample to the scan accumulator
(main.py:540-541). -/
def appendScan (st : St) (angle distance : ℚ) : St :=
  { st with scanAngles := st.scanAngles ++ [angle]
            scanDistances := st.scanDistances ++ [distance] }

/-- The recovery path of `process_scan_data` (main.py:545-558):
`re.findall(r"[\d.]+", line)`, first two numbers as angle and
distance; a second parse failure or a short list is silently skipped. -/
def scanRecover (st : St) (l : List Char) : St :=
  let numbers := numRuns l
  if 2 ≤ numbers.length then
    match pyFloat (numbers.getD 0 []), pyFloat (numbers.getD 1 []) with
    | some angle, some distance =>
      if 0 ≤ angle ∧ angle ≤ 180 ∧ 0 < distance then appendScan st angle distance
      else st
    | _, _ => st
  else st

/-- `process_scan_data` (main.py:517): skip header-ish and blank lines;
split on whitespace; with at least two tokens try `float` on the first
two and keep the sample when `0 <= angle <= 180 and distance > 0`; on a
`float` failure fall back to `scanRecover`.  With fewer than two tokens
nothing is attempted. -/
def process_scan_data (st : St) (l : List Char) : St :=
  if hasSub l (chars "Angle") || hasSub l (chars "Distance") ||
      hasSub l (chars "---") || (pyStrip l).isEmpty then st
  else
    let parts := splitWs l
    if 2 ≤ parts.length then
      match pyFloat (parts.getD 0 []), pyFloat (parts.getD 1 []) with
      | some angle, some distance =>
        if 0 ≤ angle ∧ angle ≤ 180 ∧ 0 < distance then appendScan st angle distance
        else st
      | _, _ => scanRecover st l
    else st

/-- `complete_scan` (main.py:655): with an empty accumulator just
reset; otherwise hand the collected data to `update_polar_plot` and
reset the accumulator and the scan type. -/
def complete_scan (st : St) : St :=
  if st.scanAngles.isEmpty || st.scanDistances.isEmpty then
    { st with scanAngles := [], scanDistances := [], scanType := none }
  else
    { st with plot := some (st.scanAngles, st.scanDistances, st.scanType)
              scanAngles := []
              scanDistances := []
              scanType := none }

/-! ## Object registry (main.py:560-653) -/

/-- Append a detected object (main.py:597-605): world coordinates from
the inlined transform at the pose current at call time, tagged with
`self.scan_data['type'] or 'Unknown'` (`none` models `'Unknown'`). -/
noncomputable def appendObj (st : St) (objId : ℤ) (angle dist width : ℚ) : St :=
  let p := toWorld angle dist st.pose
  { st with objects := st.objects ++ [⟨objId, p.1, p.2, angle, dist, width, st.scanType⟩] }

/-- The recovery path of `process_object_data` (main.py:616-653):
`re.findall(r"[\d.]+", line)`, first four numbers as id, angle,
distance, width (`int(float(...))` on a nonnegative token is the
floor); an inner failure leaves the state unchanged. -/
noncomputable def objRecover (st : St) (l : List Char) : St :=
  let numbers := numRuns l
  if 4 ≤ numbers.length then
    match pyFloat (numbers.getD 0 []), pyFloat (numbers.getD 1 []),
        pyFloat (numbers.getD 2 []), pyFloat (numbers.getD 3 []) with
    | some i, some angle, some dist, some width => appendObj st ⌊i⌋ angle dist width
    | _, _, _, _ => st
  else st

/-- `process_object_data` (main.py:560): split on `|`; with fewer than
four parts return; otherwise `int`/`float` the stripped first four
parts and append the transformed object; on any parse failure fall back
to `objRecover`. -/
noncomputable def process_object_data (st : St) (l : List Char) : St :=
  let parts := splitOnChar '|' l
  if parts.length < 4 then st
  else
    match pyInt (pyStrip (parts.getD 0 [])), pyFloat (pyStrip (parts.getD 1 [])),
        pyFloat (pyStrip (parts.getD 2 [])), pyFloat (pyStrip (parts.getD 3 [])) with
    | some i, some angle, some dist, some width => appendObj st i angle dist width
    | _, _, _, _ => objRecover st l

/-! ## Message classifier (main.py:457-515) -/

/-- One start-position attempt of the object-row regex
`\d+\s*\|\s*\d+\.\d+\s*\|\s*\d+\.\d+\s*\|\s*\d+\.\d+`: each `\d+` is
followed by a non-digit requirement and each `\s*` by a non-space
requirement, so the greedy maximal runs are exact. -/
def eatDigits1 (l : List Char) : Option (List Char) :=
  let d := l.takeWhile Char.isDigit
  if d.isEmpty then none else some (l.drop d.length)

/-- Consume `\s*`. -/
def eatWs (l : List Char) : List Char :=
  l.dropWhile isPySpace

/-- Consume one expected character. -/
def eatChar (c : Char) : List Char → Option (List Char)
  | [] => none
  | x :: t => if x = c then some t else none

/-- Consume `\d+\.\d+`. -/
def eatFloatDD (l : List Char) : Option (List Char) := do
  let l ← eatDigits1 l
  let l ← eatChar '.' l
  eatDigits1 l

/-- The object-row regex matched at the start of `l`. -/
def objRowAt (l : List Char) : Bool :=
  (do
    let l ← eatDigits1 l
    let l ← eatChar '|' (eatWs l)
    let l ← eatFloatDD (eatWs l)
    let l ← eatChar '|' (eatWs l)
    let l ← eatFloatDD (eatWs l)
    let l ← eatChar '|' (eatWs l)
    let _ ← eatFloatDD (eatWs l)
    pure ()).isSome

/-- `re.search` of the object-row pattern (main.py:504): true when it
matches at some start position. -/
def objRowRegex : List Char → Bool
  | [] => false
  | c :: t => objRowAt (c :: t) || objRowRegex t

/-- `process_line` (main.py:457): the source's single `if`/`elif`
chain.  While a scan is active every line goes to `process_scan_data`;
otherwise movement confirmations, scan lifecycle markers, the
object-detection header (only the IR header clears the object list),
object rows gated by the regex, and the blue-sample marker are tried in
order; anything else falls through unchanged. -/
noncomputable def process_line (st : St) (line : List Char) : St :=
  if st.scanType.isSome then process_scan_data st line
  else if hasSub line (chars "Moving forward") then
    match extract_number line (chars "Moving forward ") (chars " mm") with
    | some n => move_forward st ((n : ℚ) / 10)
    | none => st
  else if hasSub line (chars "Turning right") then
    match extract_number line (chars "Turning right ") (chars " degrees") with
    | some n => turn_right st (n : ℚ)
    | none => st
  else if hasSub line (chars "Turning left") then
    match extract_number line (chars "Turning left ") (chars " degrees") with
    | some n => turn_left st (n : ℚ)
    | none => st
  else if hasSub line (chars "Beginning IR environment scan") then
    { st with scanAngles := [], scanDistances := [], scanType := some ScanKind.IR }
  else if hasSub line (chars "Beginning PING environment scan") then
    { st with scanAngles := [], scanDistances := [], scanType := some ScanKind.PING }
  else if hasSub line (chars "IR scan complete") || hasSub line (chars "PING scan complete") then
    complete_scan st
  else if hasSub line (chars "Object Detection Results") then
    if hasSub line (chars "IR Object Detection Results") then { st with objects := [] }
    else st
  else if hasSub line (chars "|") && objRowRegex line then
    process_object_data st line
  else if hasSub line (chars "blue sample detected") then
    { st with water := st.water ++ [(st.pose.x, st.pose.y)] }
  else st

/-! ## Stream framer (main.py:427-448) -/

/-- The reader state: the engine state plus the retained partial line
(`buffer` in `receive_data`). -/
structure Conn where
  st : St
  buf : List Char

/-- The initial reader state: `buffer = ""`. -/
def initConn : Conn :=
  ⟨initSt, []⟩

/-- The per-line step of `receive_data`'s inner loop:
`if line.strip(): self.process_line(line)`. -/
noncomputable def procStep (st : St) (l : List Char) : St :=
  if (pyStrip l).isEmpty then st else process_line st l

/-- One iteration of `receive_data` on a received chunk: append the
chunk to the buffer, split off the complete lines, keep the trailing
partial line, process each complete non-blank line. -/
noncomputable def receive_data (c : Conn) (chunk : List Char) : Conn :=
  let r := splitLines (c.buf ++ chunk)
  ⟨r.1.foldl procStep c.st, r.2⟩

/-- Feeding a list of chunks in sequence. -/
noncomputable def receiveAll (c : Conn) (chunks : List (List Char)) : Conn :=
  chunks.foldl receive_data c

/-! ## Derived definitions used by the claims -/

/-- A pose-mutating operation, as dispatched by `process_line` from a
confirmed movement line. -/
inductive MoveOp
  | forward (d : ℚ)
  | right (a : ℚ)
  | left (a : ℚ)

/-- The magnitude of a movement operation. -/
def MoveOp.mag : MoveOp → ℚ
  | .forward d => d
  | .right a => a
  | .left a => a

/-- Apply one movement operation to the state. -/
noncomputable def applyOp (st : St) : MoveOp → St
  | .forward d => move_forward st d
  | .right a => turn_right st a
  | .left a => turn_left st a

/-- Apply a sequence of movement operations. -/
noncomputable def applyOps (st : St) (ops : List MoveOp) : St :=
  ops.foldl applyOp st

/-- A line the strict path of `process_scan_data` accepts with values
`a` (angle) and `d` (distance): not header-ish, not blank, at least two
whitespace tokens, the first two `float`-parse to `a` and `d`, and the
validity check `0 <= angle <= 180 and distance > 0` passes. -/
def validScanRow (l : List Char) (a d : ℚ) : Bool :=
  !hasSub l (chars "Angle") && !hasSub l (chars "Distance") &&
  !hasSub l (chars "---") && !(pyStrip l).isEmpty &&
  decide (2 ≤ (splitWs l).length) &&
  decide (pyFloat ((splitWs l).getD 0 []) = some a) &&
  decide (pyFloat ((splitWs l).getD 1 []) = some d) &&
  decide (0 ≤ a) && decide (a ≤ 180) && decide (0 < d)

/-- Strict field-by-field parsing of a scan row fails: fewer than two
whitespace tokens, or a `float` conversion of one of the first two
raises. -/
def scanStrictFail (l : List Char) : Bool :=
  let parts := splitWs l
  decide (parts.length < 2) ||
  (pyFloat (parts.getD 0 [])).isNone || (pyFloat (parts.getD 1 [])).isNone

/-- Strict field-by-field parsing of an object row fails: fewer than
four `|`-separated parts, or an `int`/`float` conversion of one of the
first four stripped parts raises. -/
def objStrictFail (l : List Char) : Bool :=
  let parts := splitOnChar '|' l
  decide (parts.length < 4) ||
  (pyInt (pyStrip (parts.getD 0 []))).isNone ||
  (pyFloat (pyStrip (parts.getD 1 []))).isNone ||
  (pyFloat (pyStrip (parts.getD 2 []))).isNone ||
  (pyFloat (pyStrip (parts.getD 3 []))).isNone

/-- The state after `begin(IR) → three valid data rows → complete(IR)`
fed line by line from the initial state (the scenario of the
scan-sealing claim). -/
noncomputable def c1run : St :=
  process_line
    (process_line
      (process_line
        (process_line
          (process_line initSt (chars "Beginning IR environment scan"))
          (chars "0 1.5"))
        (chars "90 2.0"))
      (chars "180 1.0"))
    (chars "IR scan complete")

/-- A sample detected object for exercising the object list. -/
def objSample : DetObj :=
  ⟨1, 0, 0, 45, 10, 5, none⟩

/-- An idle state with a non-empty object list. -/
def c7state : St :=
  { initSt with objects := [objSample] }

/-- A state collecting an IR scan with one sample already stored. -/
def c6state : St :=
  { initSt with scanType := some ScanKind.IR, scanAngles := [10], scanDistances := [1] }

/-! ## Theorems -/

/-- `fmod360` lands at or above zero: Python float `%` with a positive
modulus never returns a negative value. -/
theorem fmod360_nonneg (q : ℚ) : 0 ≤ fmod360 q := by
  unfold fmod360
  have h := Int.floor_le (q / 360)
  have h2 : (360 : ℚ) * (⌊q / 360⌋ : ℚ) ≤ 360 * (q / 360) :=
    mul_le_mul_of_nonneg_left h (by norm_num)
  have h3 : (360 : ℚ) * (q / 360) = q := by ring
  linarith

/-- `fmod360` lands strictly below 360. -/
theorem fmod360_lt_360 (q : ℚ) : fmod360 q < 360 := by
  unfold fmod360
  have h := Int.lt_floor_add_one (q / 360)
  have h2 : (360 : ℚ) * (q / 360) < 360 * ((⌊q / 360⌋ : ℚ) + 1) :=
    mul_lt_mul_of_pos_left h (by norm_num)
  have h3 : (360 : ℚ) * (q / 360) = q := by ring
  linarith

/-- `move_forward` updates `x` by `d·sin(radians heading)` (main.py:770). -/
theorem move_forward_x (st : St) (d : ℚ) :
    (move_forward st d).pose.x = st.pose.x + (d : ℝ) * Real.sin (radians st.pose.heading) :=
  rfl

/-- `move_forward` updates `y` by `d·cos(radians heading)` (main.py:771). -/
theorem move_forward_y (st : St) (d : ℚ) :
    (move_forward st d).pose.y = st.pose.y + (d : ℝ) * Real.cos (radians st.pose.heading) :=
  rfl

/-- `move_forward` leaves the heading unchanged. -/
theorem move_forward_heading (st : St) (d : ℚ) :
    (move_forward st d).pose.heading = st.pose.heading :=
  rfl

/-- While a scan is active, `process_line` is `process_scan_data`
(the first branch of the `elif` chain, main.py:462-464). -/
theorem scan_mode_dispatch (st : St) (l : List Char) (k : ScanKind)
    (h : st.scanType = some k) :
    process_line st l = process_scan_data st l := by
  obtain ⟨sa, sd, sty, p, hs, ob, wa, pl⟩ := st
  cases h
  rfl

/-- `process_scan_data` either leaves the state unchanged or appends
exactly one `(angle, distance)` pair. -/
theorem process_scan_data_cases (st : St) (l : List Char) :
    process_scan_data st l = st ∨ ∃ a d, process_scan_data st l = appendScan st a d := by
  unfold process_scan_data scanRecover
  dsimp only
  repeat' split
  all_goals first
    | exact Or.inl rfl
    | exact Or.inr ⟨_, _, rfl⟩

/-- A line accepted by the strict path appends its `(angle, distance)`
pair, whatever the rest of the state is. -/
theorem validScanRow_processes (l : List Char) (a d : ℚ)
    (h : validScanRow l a d = true) (st : St) :
    process_scan_data st l = appendScan st a d := by
  unfold validScanRow at h
  simp only [Bool.and_eq_true, Bool.not_eq_true', decide_eq_true_eq] at h
  obtain ⟨⟨⟨⟨⟨⟨⟨⟨⟨h1, h2⟩, h3⟩, h4⟩, h5⟩, h6⟩, h7⟩, h8⟩, h9⟩, h10⟩ := h
  unfold process_scan_data
  rw [h1, h2, h3, h4]
  dsimp only
  rw [if_pos h5, h6, h7]
  simp [h8, h9, h10]

/-- Any completion marker reaching `process_scan_data` is discarded:
it has no digits, so neither parsing path fires. -/
theorem process_scan_data_ir_complete (st : St) :
    process_scan_data st (chars "IR scan complete") = st :=
  rfl

/-- Same for the PING completion marker. -/
theorem process_scan_data_ping_complete (st : St) :
    process_scan_data st (chars "PING scan complete") = st :=
  rfl

/-- C3: the local-to-world transform applied to a detected-object row
returns exactly `(pose.x + relX·cos h − relY·sin h,
pose.y + relX·sin h + relY·cos h)` with
`relX = distance·sin(radians localAngle)`,
`relY = distance·cos(radians localAngle)`, `h = radians(pose.heading)`
(the spec-worded `toWorldSpec`), and it is a pure function: two calls
with identical `(angle, distance, pose)` return identical output. -/
theorem c3_toWorld_formula_and_pure :
    ∀ (angle dist : ℚ) (p : Pose),
      toWorld angle dist p = toWorldSpec angle dist p ∧
      ∀ (angle2 dist2 : ℚ) (p2 : Pose),
        angle2 = angle → dist2 = dist → p2 = p →
        toWorld angle2 dist2 p2 = toWorld angle dist p := by
  intro angle dist p
  refine ⟨rfl, ?_⟩
  rintro angle2 dist2 p2 rfl rfl rfl
  rfl

/-- C3 witness at `(45, 10, ⟨0, 0, 90⟩)`. -/
theorem c3_witness :
    toWorld 45 10 ⟨0, 0, 90⟩ = toWorldSpec 45 10 ⟨0, 0, 90⟩ ∧
    toWorld 45 10 ⟨0, 0, 90⟩ = toWorld 45 10 ⟨0, 0, 90⟩ :=
  ⟨(c3_toWorld_formula_and_pure 45 10 ⟨0, 0, 90⟩).1,
   (c3_toWorld_formula_and_pure 45 10 ⟨0, 0, 90⟩).2 45 10 ⟨0, 0, 90⟩ rfl rfl rfl⟩

unseal Rat.add Rat.sub Rat.mul Rat.inv in
/-- C4: a confirmed right turn of `a ≥ 0` degrees sets the heading to
`(heading − a) mod 360` and a left turn to `(heading + a) mod 360`;
concretely, from 350° a confirmed right turn of 20° gives 330°, and
from 10° a confirmed left turn of 355° gives 5°. -/
theorem c4_turn_integration :
    (∀ (st : St) (a : ℚ), 0 ≤ a →
      (turn_right st a).pose.heading = fmod360 (st.pose.heading - a) ∧
      (turn_left st a).pose.heading = fmod360 (st.pose.heading + a)) ∧
    (process_line { initSt with pose := ⟨0, 0, 350⟩ }
        (chars "Turning right 20 degrees")).pose.heading = 330 ∧
    (process_line { initSt with pose := ⟨0, 0, 10⟩ }
        (chars "Turning left 355 degrees")).pose.heading = 5 :=
  ⟨fun _ _ _ => ⟨rfl, rfl⟩, by decide, by decide⟩

/-- C4 witness: the general rule applied at the initial state with a
20° turn. -/
theorem c4_witness :
    (turn_right initSt 20).pose.heading = fmod360 (initSt.pose.heading - 20) ∧
    (turn_left initSt 20).pose.heading = fmod360 (initSt.pose.heading + 20) :=
  c4_turn_integration.1 initSt 20 (by norm_num)

/-- One movement operation keeps the heading inside `[0, 360)`:
forward motion leaves it unchanged, turns renormalize with `%= 360`. -/
theorem applyOp_heading (st : St) (op : MoveOp)
    (h0 : 0 ≤ st.pose.heading) (h1 : st.pose.heading < 360) :
    0 ≤ (applyOp st op).pose.heading ∧ (applyOp st op).pose.heading < 360 := by
  cases op with
  | forward d => exact ⟨h0, h1⟩
  | right a => exact ⟨fmod360_nonneg _, fmod360_lt_360 _⟩
  | left a => exact ⟨fmod360_nonneg _, fmod360_lt_360 _⟩

/-- C5: starting from the initial pose (heading 90°), after any
sequence of confirmed pose-mutating operations with non-negative
magnitudes the heading lies in `[0, 360)`.  (Each prefix of such a
sequence is again such a sequence, so the invariant holds after every
operation.) -/
theorem c5_heading_normalized :
    ∀ ops : List MoveOp, (∀ op ∈ ops, 0 ≤ op.mag) →
      0 ≤ (applyOps initSt ops).pose.heading ∧
      (applyOps initSt ops).pose.heading < 360 := by
  have key : ∀ (ops : List MoveOp) (st : St),
      0 ≤ st.pose.heading → st.pose.heading < 360 →
      0 ≤ (applyOps st ops).pose.heading ∧ (applyOps st ops).pose.heading < 360 := by
    intro ops
    induction ops with
    | nil => exact fun st h0 h1 => ⟨h0, h1⟩
    | cons op rest ih =>
      intro st h0 h1
      have hstep := applyOp_heading st op h0 h1
      exact ih (applyOp st op) hstep.1 hstep.2
  intro ops _
  exact key ops initSt (by norm_num [initSt]) (by norm_num [initSt])

unseal Rat.add Rat.sub Rat.mul Rat.inv in
/-- C5 witness: a right turn, a forward move and a large left turn. -/
theorem c5_witness :
    0 ≤ (applyOps initSt [MoveOp.right 20, MoveOp.forward 5, MoveOp.left 355]).pose.heading ∧
    (applyOps initSt [MoveOp.right 20, MoveOp.forward 5, MoveOp.left 355]).pose.heading < 360 :=
  c5_heading_normalized [MoveOp.right 20, MoveOp.forward 5, MoveOp.left 355] (by decide)

/-- C2 (records the divergence): from the initial pose `(0, 0, 90°)` a
confirmed "Moving forward 100 mm" line gives pose `(10, 0, 90°)` — the
10 cm displacement lands on the x axis, not the y axis, because
`move_forward` computes `dx = d·sin(θ)`, `dy = d·cos(θ)`
(main.py:770-771); in particular the resulting `x` is not 0. -/
theorem c2_forward_at_heading90 :
    (process_line initSt (chars "Moving forward 100 mm")).pose.heading = 90 ∧
    (process_line initSt (chars "Moving forward 100 mm")).pose.x = 10 ∧
    (process_line initSt (chars "Moving forward 100 mm")).pose.y = 0 ∧
    (process_line initSt (chars "Moving forward 100 mm")).pose.x ≠ 0 ∧
    (process_line initSt (chars "Moving forward 100 mm")).history.length = 2 := by
  have e : process_line initSt (chars "Moving forward 100 mm")
      = move_forward initSt (((100 : ℕ) : ℚ) / 10) := by rfl
  have hrad : radians initSt.pose.heading = Real.pi / 2 := by
    show ((90 : ℚ) : ℝ) * Real.pi / 180 = Real.pi / 2
    push_cast
    ring
  have hx : (process_line initSt (chars "Moving forward 100 mm")).pose.x = 10 := by
    rw [e, move_forward_x, hrad, Real.sin_pi_div_two]
    show (0 : ℝ) + ((((100 : ℕ) : ℚ) / 10 : ℚ) : ℝ) * 1 = 10
    push_cast
    norm_num
  refine ⟨by rw [e, move_forward_heading]; rfl, hx, ?_, by rw [hx]; norm_num, ?_⟩
  · rw [e, move_forward_y, hrad, Real.cos_pi_div_two]
    show (0 : ℝ) + ((((100 : ℕ) : ℚ) / 10 : ℚ) : ℝ) * 0 = 0
    ring
  · rw [e]
    show (initSt.history ++ [_]).length = 2
    rfl

unseal Rat.add Rat.sub Rat.mul Rat.inv in
/-- C6: while collecting an IR scan, a "PING scan complete" line is a
no-op (the whole state is unchanged, so the session stays collecting
IR with its samples), and a valid data row arriving afterwards is
still appended to the IR session. -/
theorem c6_mismatched_completion_noop :
    ∀ st : St, st.scanType = some ScanKind.IR →
      process_line st (chars "PING scan complete") = st ∧
      process_line st (chars "45 2.5") = appendScan st 45 (5 / 2) ∧
      (process_line st (chars "45 2.5")).scanType = some ScanKind.IR ∧
      (process_line st (chars "45 2.5")).scanAngles = st.scanAngles ++ [45] ∧
      (process_line st (chars "45 2.5")).scanDistances = st.scanDistances ++ [5 / 2] := by
  intro st h
  obtain ⟨sa, sd, sty, p, hs, ob, wa, pl⟩ := st
  cases h
  exact ⟨rfl, rfl, rfl, rfl, rfl⟩

/-- C6 witness at a collecting state with one sample stored. -/
theorem c6_witness :
    process_line c6state (chars "PING scan complete") = c6state ∧
    process_line c6state (chars "45 2.5") = appendScan c6state 45 (5 / 2) ∧
    (process_line c6state (chars "45 2.5")).scanType = some ScanKind.IR ∧
    (process_line c6state (chars "45 2.5")).scanAngles = c6state.scanAngles ++ [45] ∧
    (process_line c6state (chars "45 2.5")).scanDistances = c6state.scanDistances ++ [5 / 2] :=
  c6_mismatched_completion_noop c6state rfl

/-- C7: with no scan in progress, the "IR Object Detection Results"
header clears the working object list, while the "PING Object
Detection Results" header leaves the whole state unchanged. -/
theorem c7_object_header_asymmetry :
    ∀ st : St, st.scanType = none →
      process_line st (chars "IR Object Detection Results") = { st with objects := [] } ∧
      process_line st (chars "PING Object Detection Results") = st := by
  intro st h
  obtain ⟨sa, sd, sty, p, hs, ob, wa, pl⟩ := st
  cases h
  exact ⟨rfl, rfl⟩

/-- C7 witness at an idle state whose object list is non-empty. -/
theorem c7_witness :
    process_line c7state (chars "IR Object Detection Results") = { c7state with objects := [] } ∧
    process_line c7state (chars "PING Object Detection Results") = c7state :=
  c7_object_header_asymmetry c7state rfl

unseal Rat.add Rat.sub Rat.mul Rat.inv in
/-- C1 counterexample: after `begin(IR)`, three valid data rows and an
"IR scan complete" line, the session has NOT sealed — nothing was
handed to the plot, the scan type is still IR (not cleared), and the
accumulator still holds the three raw pairs. -/
theorem c1_scan_complete_not_sealed :
    c1run.plot = none ∧ c1run.scanType = some ScanKind.IR ∧
    c1run.scanAngles = [0, 90, 180] ∧ c1run.scanDistances = [3 / 2, 2, 1] ∧
    ¬(c1run.scanType = none ∧ c1run.scanAngles = []) := by
  decide

/-- C1 amended: after `begin(IR)`, three strict-valid data rows and an
"IR scan complete" line, the session remains collecting: the scan-mode
guard (main.py:462) shadows the completion branch (main.py:492), the
completion line is consumed as a candidate data row and discarded, so
the state is the starting one with kind IR and exactly the three
parsed raw `(angle, distance)` pairs — no seal, no handoff to the
consumer, no world coordinates, accumulator not cleared. -/
theorem c1_amended_scan_stays_collecting
    (st : St) (l1 l2 l3 : List Char) (a1 d1 a2 d2 a3 d3 : ℚ)
    (h0 : st.scanType = none)
    (h1 : validScanRow l1 a1 d1 = true)
    (h2 : validScanRow l2 a2 d2 = true)
    (h3 : validScanRow l3 a3 d3 = true) :
    process_line (process_line (process_line (process_line (process_line st
        (chars "Beginning IR environment scan")) l1) l2) l3) (chars "IR scan complete")
      = { st with scanAngles := [a1, a2, a3], scanDistances := [d1, d2, d3],
                  scanType := some ScanKind.IR } := by
  obtain ⟨sa, sd, sty, p, hs, ob, wa, pl⟩ := st
  cases h0
  have e0 : process_line ⟨sa, sd, none, p, hs, ob, wa, pl⟩
      (chars "Beginning IR environment scan")
      = ⟨[], [], some ScanKind.IR, p, hs, ob, wa, pl⟩ := rfl
  rw [e0]
  rw [scan_mode_dispatch _ l1 ScanKind.IR rfl, validScanRow_processes l1 a1 d1 h1]
  rw [scan_mode_dispatch _ l2 ScanKind.IR rfl, validScanRow_processes l2 a2 d2 h2]
  rw [scan_mode_dispatch _ l3 ScanKind.IR rfl, validScanRow_processes l3 a3 d3 h3]
  rw [scan_mode_dispatch _ _ ScanKind.IR rfl, process_scan_data_ir_complete]
  simp [appendScan]

unseal Rat.add Rat.sub Rat.mul Rat.inv in
/-- C1 amended, witness: the concrete run of `c1_scan_complete_not_sealed`. -/
theorem c1_amended_witness :
    c1run = { initSt with scanAngles := [0, 90, 180], scanDistances := [3 / 2, 2, 1],
                          scanType := some ScanKind.IR } :=
  c1_amended_scan_stays_collecting initSt (chars "0 1.5") (chars "90 2.0") (chars "180 1.0")
    0 (3 / 2) 90 2 180 1 rfl (by decide) (by decide) (by decide)

/-- C10: while a scan is active, every line is handled exclusively as
a candidate scan data row: `process_line` equals `process_scan_data`,
the pose, history, objects, water samples, plot and scan type are
unchanged, and the only possible mutation is appending one
`(angle, distance)` pair to the accumulator. -/
theorem c10_scan_mode_gating :
    ∀ (st : St) (l : List Char) (k : ScanKind), st.scanType = some k →
      process_line st l = process_scan_data st l ∧
      (process_line st l).pose = st.pose ∧
      (process_line st l).history = st.history ∧
      (process_line st l).objects = st.objects ∧
      (process_line st l).water = st.water ∧
      (process_line st l).plot = st.plot ∧
      (process_line st l).scanType = st.scanType ∧
      (process_line st l = st ∨ ∃ a d, process_line st l = appendScan st a d) := by
  intro st l k h
  have hd : process_line st l = process_scan_data st l := scan_mode_dispatch st l k h
  have hc := process_scan_data_cases st l
  rw [hd]
  rcases hc with hc | ⟨a, d, hc⟩ <;> rw [hc]
  · exact ⟨rfl, rfl, rfl, rfl, rfl, rfl, rfl, Or.inl rfl⟩
  · exact ⟨rfl, rfl, rfl, rfl, rfl, rfl, rfl, Or.inr ⟨a, d, rfl⟩⟩

/-- C10 witness: a completion marker arriving while collecting. -/
theorem c10_witness :
    process_line c6state (chars "IR scan complete")
        = process_scan_data c6state (chars "IR scan complete") ∧
    (process_line c6state (chars "IR scan complete")).pose = c6state.pose ∧
    (process_line c6state (chars "IR scan complete")).history = c6state.history ∧
    (process_line c6state (chars "IR scan complete")).objects = c6state.objects ∧
    (process_line c6state (chars "IR scan complete")).water = c6state.water ∧
    (process_line c6state (chars "IR scan complete")).plot = c6state.plot ∧
    (process_line c6state (chars "IR scan complete")).scanType = c6state.scanType ∧
    (process_line c6state (chars "IR scan complete") = c6state ∨
      ∃ a d, process_line c6state (chars "IR scan complete") = appendScan c6state a d) :=
  c10_scan_mode_gating c6state (chars "IR scan complete") ScanKind.IR rfl

/-- C8: when strict field-by-field parsing of a row fails and the
fallback `re.findall(r"[\d.]+", ...)` yields fewer than the minimum
required numbers (2 for scan rows, 4 for object rows), the row is
discarded with no state mutated.  (Both row processors are total Lean
functions, so no row ever aborts the reader loop.) -/
theorem c8_row_parse_failure_policy :
    ∀ (st : St) (l : List Char),
      (scanStrictFail l = true → (numRuns l).length < 2 → process_scan_data st l = st) ∧
      (objStrictFail l = true → (numRuns l).length < 4 → process_object_data st l = st) := by
  intro st l
  constructor
  · intro hf hn
    unfold scanStrictFail at hf
    simp only [Bool.or_eq_true, decide_eq_true_eq, Option.isNone_iff_eq_none] at hf
    unfold process_scan_data scanRecover
    dsimp only
    split
    · rfl
    · split
      · rename_i hlen
        split
        · rename_i a d ha hd
          exfalso
          rcases hf with (hf | hf) | hf
          · omega
          · rw [ha] at hf
            exact Option.noConfusion hf
          · rw [hd] at hf
            exact Option.noConfusion hf
        · rw [if_neg (by omega)]
      · rfl
  · intro hf hn
    unfold objStrictFail at hf
    simp only [Bool.or_eq_true, decide_eq_true_eq, Option.isNone_iff_eq_none] at hf
    unfold process_object_data objRecover
    dsimp only
    split
    · rfl
    · rename_i hlen
      split
      · rename_i i a d w hi ha hd hw
        exfalso
        rcases hf with (((hf | hf) | hf) | hf) | hf
        · omega
        · rw [hi] at hf
          exact Option.noConfusion hf
        · rw [ha] at hf
          exact Option.noConfusion hf
        · rw [hd] at hf
          exact Option.noConfusion hf
        · rw [hw] at hf
          exact Option.noConfusion hf
      · rw [if_neg (by omega)]

/-- C8 witness: a line with no digits at all and two `|`-parts. -/
theorem c8_witness :
    process_scan_data initSt (chars "no numbers | here") = initSt ∧
    process_object_data initSt (chars "no numbers | here") = initSt :=
  ⟨(c8_row_parse_failure_policy initSt (chars "no numbers | here")).1 (by decide) (by decide),
   (c8_row_parse_failure_policy initSt (chars "no numbers | here")).2 (by decide) (by decide)⟩

theorem splitOnCharAux_eq_splitLinesAux (l acc : List Char) :
    splitOnCharAux '\n' l acc = (splitLinesAux l acc).1 ++ [(splitLinesAux l acc).2] := by
  induction l generalizing acc with
  | nil => simp [splitOnCharAux, splitLinesAux]
  | cons c t ih =>
    by_cases hc : c = '\n'
    · subst hc
      simp [splitOnCharAux, splitLinesAux, ih]
    · simp only [splitOnCharAux, splitLinesAux, if_neg hc]
      exact ih (c :: acc)

theorem splitLines_eq_splitOnChar (l : List Char) :
    splitOnChar '\n' l = (splitLines l).1 ++ [(splitLines l).2] :=
  splitOnCharAux_eq_splitLinesAux l []

theorem splitLinesAux_no_sep (m y acc : List Char) (hm : ∀ c ∈ m, c ≠ '\n') :
    splitLinesAux (m ++ y) acc = splitLinesAux y (m.reverse ++ acc) := by
  induction m generalizing acc with
  | nil => simp
  | cons c t ih =>
    have hc : c ≠ '\n' := hm c (List.mem_cons_self c t)
    simp only [List.cons_append, splitLinesAux, if_neg hc, List.append_eq]
    rw [ih (c :: acc) (fun x hx => hm x (List.mem_cons_of_mem c hx))]
    congr 1
    simp

theorem splitLinesAux_buf (l : List Char) (acc : List Char)
    (hacc : ∀ c ∈ acc, c ≠ '\n') :
    ∀ c ∈ (splitLinesAux l acc).2, c ≠ '\n' := by
  induction l generalizing acc with
  | nil =>
    intro c hc
    exact hacc c (by simpa [splitLinesAux] using hc)
  | cons c t ih =>
    by_cases hc : c = '\n'
    · subst hc
      simp only [splitLinesAux, if_pos rfl]
      exact ih [] (by simp)
    · simp only [splitLinesAux, if_neg hc]
      refine ih (c :: acc) ?_
      intro x hx
      rcases List.mem_cons.mp hx with h | h
      · exact h ▸ hc
      · exact hacc x h

theorem splitLinesAux_append (x y acc : List Char) (hacc : ∀ c ∈ acc, c ≠ '\n') :
    splitLinesAux (x ++ y) acc =
      ((splitLinesAux x acc).1 ++ (splitLinesAux ((splitLinesAux x acc).2 ++ y) []).1,
        (splitLinesAux ((splitLinesAux x acc).2 ++ y) []).2) := by
  induction x generalizing acc with
  | nil =>
    have h1 : splitLinesAux (acc.reverse ++ y) [] = splitLinesAux y acc := by
      rw [splitLinesAux_no_sep acc.reverse y [] (fun c hc => hacc c (List.mem_reverse.mp hc))]
      simp
    simp [splitLinesAux, h1]
  | cons c t ih =>
    by_cases hc : c = '\n'
    · subst hc
      simp only [List.cons_append, splitLinesAux, eq_self_iff_true, if_true, List.append_eq]
      rw [ih [] (by simp)]
    · simp only [List.cons_append, splitLinesAux, if_neg hc, List.append_eq]
      exact ih (c :: acc) (by
        intro x hx
        rcases List.mem_cons.mp hx with h | h
        · exact h ▸ hc
        · exact hacc x h)

theorem receive_data_assoc (c : Conn) (a b : List Char) :
    receive_data (receive_data c a) b = receive_data c (a ++ b) := by
  obtain ⟨st, buf⟩ := c
  unfold receive_data splitLines
  dsimp only
  rw [← List.append_assoc]
  rw [splitLinesAux_append (buf ++ a) b [] (by simp)]
  rw [List.foldl_append]

theorem receive_data_empty (c : Conn) (h : ∀ ch ∈ c.buf, ch ≠ '\n') :
    receive_data c [] = c := by
  obtain ⟨st, buf⟩ := c
  unfold receive_data splitLines
  rw [splitLinesAux_no_sep buf [] [] h]
  simp [splitLinesAux]

theorem receive_data_buf (c : Conn) (chunk : List Char) :
    ∀ ch ∈ (receive_data c chunk).buf, ch ≠ '\n' := by
  obtain ⟨st, buf⟩ := c
  unfold receive_data splitLines
  dsimp only
  exact splitLinesAux_buf (buf ++ chunk) [] (by simp)

theorem receiveAll_flatten (chunks : List (List Char)) :
    ∀ c : Conn, (∀ ch ∈ c.buf, ch ≠ '\n') →
      receiveAll c chunks = receive_data c chunks.flatten := by
  induction chunks with
  | nil =>
    intro c h
    simp only [receiveAll, List.foldl_nil, List.flatten_nil]
    exact (receive_data_empty c h).symm
  | cons x xs ih =>
    intro c h
    show receiveAll (receive_data c x) xs = _
    rw [ih (receive_data c x) (receive_data_buf c x), receive_data_assoc, List.flatten_cons]

/-- C9: the framer is fragmentation-invariant — feeding two chunks in
sequence equals feeding their concatenation, feeding any chunk list
equals feeding its concatenation, and the spec's concrete example:
"Movement comple" then "te: Moving forward 50 mm\n" yields exactly the
state of the single full line — one movement event (`move_forward` of
5 cm, history grows to 2 entries) and an empty retained buffer. -/
theorem c9_fragmentation_invariance :
    (∀ (c : Conn) (a b : List Char),
      receive_data (receive_data c a) b = receive_data c (a ++ b)) ∧
    (∀ (chunks : List (List Char)) (c : Conn), (∀ ch ∈ c.buf, ch ≠ '\n') →
      receiveAll c chunks = receive_data c chunks.flatten) ∧
    receive_data (receive_data initConn (chars "Movement comple"))
        (chars "te: Moving forward 50 mm\n")
      = receive_data initConn (chars "Movement complete: Moving forward 50 mm\n") ∧
    (receive_data initConn (chars "Movement complete: Moving forward 50 mm\n")).st
      = move_forward initSt (((50 : ℕ) : ℚ) / 10) ∧
    (receive_data initConn (chars "Movement complete: Moving forward 50 mm\n")).st.history.length = 2 ∧
    (receive_data initConn (chars "Movement complete: Moving forward 50 mm\n")).buf = [] := by
  refine ⟨receive_data_assoc, receiveAll_flatten, ?_, by rfl, by rfl, by rfl⟩
  rw [receive_data_assoc]
  rw [show chars "Movement comple" ++ chars "te: Moving forward 50 mm\n"
      = chars "Movement complete: Moving forward 50 mm\n" from by decide]

/-- C9 witness: a two-chunk feed compared against its concatenation. -/
theorem c9_witness :
    receiveAll initConn [chars "a\nb", chars "c\n"]
      = receive_data initConn ([chars "a\nb", chars "c\n"]).flatten :=
  c9_fragmentation_invariance.2.1 [chars "a\nb", chars "c\n"] initConn (by decide)
